import Mathlib

/-!
Verification of the engine selection and fallback subsystem of a
multi-engine OCR orchestration layer.

The development shallowly embeds the Python source of the core:

* `core/ocr_factory.py` — the engine factory (`create_engine`, the
  fallback resolver `_create_with_fallback`, the instance cache and
  `auto_select_engine`);
* `core/ocr_strategy.py` — the common result record (`OCRResult`,
  `to_markdown`);
* `core/document_processor.py` — the document processor
  (`process_document`, `batch_process`, `_get_engine`);
* `engines/mistral_ocr_engine.py` — the remote-API adapter's retry loop
  (`_make_request`).

Conventions of the embedding:

* Python dictionary values that appear in configurations and result
  records are modelled by `PyVal` (None, bool, int, str).  Nested
  containers do not occur in the configurations the core inspects.
* Python dicts are modelled as insertion-ordered association lists with
  unique keys; `alookup` is `dict.get`, `ainsert` is `dict[k] = v`
  (replace in place, or append at the end for a fresh key), matching
  CPython's ordered-dict semantics.
* Python's process-seeded string hash is a parameter `h : String → Int`
  of every definition that computes a cache key; `str(config)` is
  modelled faithfully by `pyStrDict`.
* Object identity is modelled by tagging every constructed adapter
  instance with a fresh allocation number `objId` drawn from a counter
  threaded through the factory state.
* Engine adapter classes are modelled by `EngineClass`: a constructor
  which either raises (an error message) or succeeds; the name carried
  by the produced instance.  Model loading, GPU probing and the actual
  recognition calls are external collaborators and stay abstract.
* Raised exceptions are modelled with `Except String`; file-system and
  network effects are modelled by explicit inputs (the set of existing
  files, the stream of HTTP responses).
-/

/-- Python scalar values as they occur in engine configurations and result
records: None, booleans, integers and strings. -/
inductive PyVal where
  | pyNone : PyVal
  | pyBool (b : Bool) : PyVal
  | pyInt (n : Int) : PyVal
  | pyStr (s : String) : PyVal
deriving Repr, DecidableEq

/-- Python truthiness of a scalar value: None and False are falsy, numbers
are falsy exactly at zero, strings are falsy exactly when empty. -/
def truthy : PyVal → Bool
  | PyVal.pyNone => false
  | PyVal.pyBool b => b
  | PyVal.pyInt n => n != 0
  | PyVal.pyStr s => s ≠ ""

/-- Python `repr` of a scalar value, as used inside `str(config)`. -/
def pyRepr : PyVal → String
  | PyVal.pyNone => "None"
  | PyVal.pyBool true => "True"
  | PyVal.pyBool false => "False"
  | PyVal.pyInt n => toString n
  | PyVal.pyStr s => "\x27" ++ s ++ "\x27"

/-- A Python dict with string keys, modelled as an insertion-ordered
association list with unique keys. -/
abbrev Config := List (String × PyVal)

/-- Lookup in an association list: `dict.get(k)` returning an `Option`. -/
def alookup {α : Type} (l : List (String × α)) (k : String) : Option α :=
  (l.find? fun p => p.1 == k).map (fun p => p.2)

/-- Assignment `dict[k] = v` on an insertion-ordered association list:
replace the binding in place when the key is present, append it otherwise. -/
def ainsert {α : Type} (l : List (String × α)) (k : String) (v : α) :
    List (String × α) :=
  if (l.find? fun p => p.1 == k).isSome then
    l.map fun p => if p.1 == k then (k, v) else p
  else
    l ++ [(k, v)]

/-- The Python expression `config.get(key, dflt)`. -/
def configGet (c : Config) (k : String) (dflt : PyVal) : PyVal :=
  (alookup c k).getD dflt

/-- Python `str` of a dict: entries in insertion order, keys and values
rendered by `repr`, as in `"\x7b'enabled': True\x7d"`. -/
def pyStrDict (c : Config) : String :=
  "\x7b" ++
    String.intercalate ", "
      (c.map fun p => "\x27" ++ p.1 ++ "\x27: " ++ pyRepr p.2) ++
  "\x7d"

/-- Python `str` of a list of strings, as used when the factory formats the
list of available engines into an error message. -/
def pyStrList (l : List String) : String :=
  "[" ++ String.intercalate ", " (l.map fun s => "\x27" ++ s ++ "\x27") ++ "]"

/-- An adapter instance.  `engineName` is the engine the instance adapts;
`objId` is the allocation number modelling Python object identity. -/
structure Inst where
  engineName : String
  objId : Nat
deriving Repr, DecidableEq

/-- An engine adapter class as the factory sees it: `ename` is the name the
produced adapter reports, `ctor` models `engine_class(config)` — `none`
means the constructor succeeds, `some e` means it raises with message `e`. -/
structure EngineClass where
  ename : String
  ctor : Config → Option String

/-- The mutable class-level state of `OCREngineFactory`: the registry
`_engines`, the instance cache `_instances` and the allocation counter
that models object identity of constructed instances. -/
structure FactoryState where
  engines : List (String × EngineClass)
  instances : List (String × Inst)
  nextId : Nat

/-- Fallback chain constant `FALLBACK_CHAIN` of `ocr_factory.py`. -/
def FALLBACK_CHAIN : List String := ["paddleocr", "tesseract", "easyocr"]

/-- Default engine constant `DEFAULT_ENGINE` of `ocr_factory.py`. -/
def DEFAULT_ENGINE : String := "paddleocr"

/-- `_ensure_engines_registered`: when the registry is empty it is populated
with the import-dependent default registrations (`avail`, the engines whose
external dependency imported successfully); otherwise it is left alone. -/
def ensureRegistered (avail : List (String × EngineClass))
    (s : FactoryState) : FactoryState :=
  if s.engines.isEmpty then { s with engines := avail } else s

/-- The cache key `f"\x7bengine_name\x7d:\x7bhash(str(config))\x7d"` computed by
`create_engine`; `h` is Python's (process-seeded) string hash. -/
def cacheKeyOf (h : String → Int) (engineName : String) (config : Config) :
    String :=
  engineName ++ ":" ++ toString (h (pyStrDict config))

/-- Loop body of `_create_with_fallback`: walk the remaining chain, skipping
ids absent from the registry, collecting one error message per engine whose
constructor raises, and returning the first successfully constructed
instance (cached under `cacheKey` when requested). -/
def fallbackGo (s : FactoryState) (config : Config) (cacheKey : String)
    (cacheInstance : Bool) :
    List String → List String → Except String Inst × FactoryState
  | [], errors =>
      (Except.error
        ("Aucun moteur disponible. Erreurs: " ++ String.intercalate "; " errors),
       s)
  | fe :: rest, errors =>
      match alookup s.engines fe with
      | none => fallbackGo s config cacheKey cacheInstance rest errors
      | some cls =>
        match cls.ctor config with
        | some e =>
            fallbackGo s config cacheKey cacheInstance rest
              (errors ++ [fe ++ ": " ++ e])
        | none =>
            let inst : Inst := { engineName := cls.ename, objId := s.nextId }
            let s1 := { s with nextId := s.nextId + 1 }
            let s2 :=
              if cacheInstance then
                { s1 with instances := ainsert s1.instances cacheKey inst }
              else s1
            (Except.ok inst, s2)

/-- `OCREngineFactory._create_with_fallback`. -/
def createWithFallback (s : FactoryState) (config : Config)
    (cacheKey : String) (cacheInstance : Bool) :
    Except String Inst × FactoryState :=
  fallbackGo s config cacheKey cacheInstance FALLBACK_CHAIN []

/-- `OCREngineFactory.create_engine`.  Ensures registration, consults the
instance cache, then either constructs the requested engine, falls back, or
raises, exactly following the branch structure of the source. -/
def createEngine (h : String → Int) (avail : List (String × EngineClass))
    (s0 : FactoryState) (engineName : String) (config : Config)
    (useFallback cacheInstance : Bool) : Except String Inst × FactoryState :=
  let s := ensureRegistered avail s0
  let cacheKey := cacheKeyOf h engineName config
  match (if cacheInstance then alookup s.instances cacheKey else none) with
  | some inst => (Except.ok inst, s)
  | none =>
    match alookup s.engines engineName with
    | none =>
        if useFallback then
          createWithFallback s config cacheKey cacheInstance
        else
          (Except.error
            ("Moteur \x27" ++ engineName ++ "\x27 inconnu. Moteurs disponibles: "
              ++ pyStrList (s.engines.map fun p => p.1)),
           s)
    | some cls =>
        if truthy (configGet config "enabled" (PyVal.pyBool true)) = false then
          if useFallback then
            createWithFallback s config cacheKey cacheInstance
          else
            (Except.error
              ("Moteur \x27" ++ engineName ++ "\x27 désactivé dans la configuration"),
             s)
        else
          match cls.ctor config with
          | some e =>
              if useFallback then
                createWithFallback s config cacheKey cacheInstance
              else
                (Except.error e, s)
          | none =>
              let inst : Inst := { engineName := cls.ename, objId := s.nextId }
              let s1 := { s with nextId := s.nextId + 1 }
              let s2 :=
                if cacheInstance then
                  { s1 with instances := ainsert s1.instances cacheKey inst }
                else s1
              (Except.ok inst, s2)

/-- `OCREngineFactory.clear_cache`: calls `cleanup()` on every cached
instance (the returned list is the sequence of object ids cleaned, cleanup
errors being swallowed) and empties the cache. -/
def clearCache (s : FactoryState) : FactoryState × List Nat :=
  ({ s with instances := [] }, s.instances.map fun p => p.2.objId)

/-- The engines whose constructor fails on `config`, out of the chain
members present in the registry, each rendered as the message
`"\x7bid\x7d: \x7berror\x7d"` that `_create_with_fallback` collects. -/
def fallbackErrors (s : FactoryState) (config : Config)
    (chain : List String) : List String :=
  chain.filterMap fun fe =>
    match alookup s.engines fe with
    | none => none
    | some cls =>
      match cls.ctor config with
      | some e => some (fe ++ ": " ++ e)
      | none => none

/-- The class of the first fallback-chain member that is registered and
whose constructor succeeds on `config`, if any. -/
def firstChainSuccess (s : FactoryState) (config : Config) :
    List String → Option EngineClass
  | [] => none
  | fe :: rest =>
      match alookup s.engines fe with
      | none => firstChainSuccess s config rest
      | some cls =>
        match cls.ctor config with
        | some _ => firstChainSuccess s config rest
        | none => some cls

/-- Selection priorities of `SelectionPriority` in `ocr_factory.py`. -/
inductive SelectionPriority where
  | speed : SelectionPriority
  | accuracy : SelectionPriority
  | cost : SelectionPriority
  | balanced : SelectionPriority
deriving Repr, DecidableEq

/-- Document complexity levels of `DocumentComplexity` in `ocr_factory.py`. -/
inductive DocumentComplexity where
  | low : DocumentComplexity
  | medium : DocumentComplexity
  | high : DocumentComplexity
deriving Repr, DecidableEq

/-- The Python test `document_type in [...]` where `document_type` is an
optional string (None is never a member). -/
def optMem (documentType : Option String) (l : List String) : Bool :=
  match documentType with
  | none => false
  | some d => l.contains d

/-- The decision tree of `auto_select_engine`, as a function of the registry
contents; mirrors the source branch for branch (`has_gpu` is supplied by the
caller, so the torch-based GPU autodetection path is not taken). -/
def autoSelectChoice (engines : List (String × EngineClass))
    (priority : SelectionPriority) (documentType : Option String)
    (complexity : DocumentComplexity) (hasGpu : Bool) : String :=
  let has := fun n => (alookup engines n).isSome
  match priority with
  | SelectionPriority.cost =>
      if has "tesseract" then "tesseract"
      else if has "easyocr" then "easyocr"
      else "paddleocr"
  | SelectionPriority.speed =>
      if complexity = DocumentComplexity.low then
        if has "tesseract" then "tesseract" else "paddleocr"
      else
        if has "gutenocr" then "gutenocr-3b" else "surya"
  | SelectionPriority.accuracy =>
      if optMem documentType ["manuscript", "historical", "handwriting"] then
        if has "gutenocr" && hasGpu then "gutenocr-7b"
        else if has "gutenocr" then "gutenocr-3b" else "hunyuan"
      else if optMem documentType ["form", "invoice", "technical", "structured"] then
        if has "mistral_ocr" then "mistral_ocr"
        else if has "gutenocr" then "gutenocr-3b" else "surya"
      else if optMem documentType ["table", "spreadsheet"] then
        if has "mistral_ocr" then "mistral_ocr"
        else if has "surya" then "surya" else "paddleocr"
      else
        if has "gutenocr" then "gutenocr-3b"
        else if has "surya" then "surya" else "paddleocr"
  | SelectionPriority.balanced =>
      match complexity with
      | DocumentComplexity.high =>
          if hasGpu && has "gutenocr" then "gutenocr-7b"
          else if has "mistral_ocr" then "mistral_ocr"
          else if has "gutenocr" then "gutenocr-3b" else "surya"
      | DocumentComplexity.medium =>
          if has "gutenocr" then "gutenocr-3b"
          else if has "surya" then "surya" else "paddleocr"
      | DocumentComplexity.low =>
          if has "surya" then "surya"
          else if has "paddleocr" then "paddleocr" else "tesseract"

/-- `OCREngineFactory.auto_select_engine`: ensures registration, then applies
the pure decision tree; returns the chosen id together with the (possibly
freshly populated) state. -/
def autoSelectEngine (avail : List (String × EngineClass)) (s0 : FactoryState)
    (priority : SelectionPriority) (documentType : Option String)
    (complexity : DocumentComplexity) (hasGpu : Bool) : String × FactoryState :=
  let s := ensureRegistered avail s0
  (autoSelectChoice s.engines priority documentType complexity hasGpu, s)

/-- The `cost` field of the static engine description table returned by
`OCREngineFactory.get_engine_info`, looked up by the engine id (variants
share their base engine's entry). -/
def engineInfoCost : String → Option String
  | "gutenocr" => some "free"
  | "gutenocr-3b" => some "free"
  | "gutenocr-7b" => some "free"
  | "mistral_ocr" => some "$2/1000 pages"
  | "surya" => some "free"
  | "hunyuan" => some "free"
  | "paddleocr" => some "free"
  | "tesseract" => some "free"
  | "easyocr" => some "free"
  | _ => none

/-- The `type` field of the static engine description table returned by
`OCREngineFactory.get_engine_info`. -/
def engineInfoType : String → Option String
  | "gutenocr" => some "vlm"
  | "gutenocr-3b" => some "vlm"
  | "gutenocr-7b" => some "vlm"
  | "mistral_ocr" => some "api"
  | "surya" => some "vlm"
  | "hunyuan" => some "vlm"
  | "paddleocr" => some "traditional"
  | "tesseract" => some "traditional"
  | "easyocr" => some "traditional"
  | _ => none

/-- One HTTP response as seen by `MistralOCREngine._make_request`: the
status code, the parsed JSON payload (abstracted to an opaque token since
the loop returns it unchanged), the error message the 4xx branch extracts
from it (`data.get("error", ...).get("message", str(data))`), and the
optional integer Retry-After header value. -/
structure RespEv where
  status : Nat
  body : String
  errMsg : String
  retryAfter : Option Nat
deriving Repr, DecidableEq

/-- One network event per attempt: either a response, or a
connection/timeout error caught by the retry loop. -/
inductive NetEvent where
  | resp (r : RespEv) : NetEvent
  | connError (msg : String) : NetEvent
deriving Repr, DecidableEq

/-- Python `str` applied to the optional last connection error
(`str(None)` is `"None"`). -/
def lastErrorStr : Option String → String
  | none => "None"
  | some s => s

/-- Retry loop of `MistralOCREngine._make_request`.  `events i` is what the
`i`-th request elicits; `total` is `self.retry_attempts`; the accumulators
are the attempts remaining, the number of requests already made, the current
backoff in seconds (initially 1, doubled after every retried attempt, exact
since all values are integral) and the collected `time.sleep` durations.
Returns the outcome, the number of requests made, and the sleep log. -/
def makeRequestGo (events : Nat → NetEvent) (total : Nat) :
    Nat → Nat → Nat → Option String → List Nat →
    Except String String × Nat × List Nat
  | 0, made, _backoff, lastError, sleeps =>
      (Except.error
        ("All " ++ toString total ++ " attempts failed. Last error: " ++
          lastErrorStr lastError),
       made, sleeps)
  | remaining + 1, made, backoff, lastError, sleeps =>
      match events made with
      | NetEvent.connError msg =>
          makeRequestGo events total remaining (made + 1) (backoff * 2)
            (some msg) (sleeps ++ [backoff])
      | NetEvent.resp r =>
          if r.status == 429 then
            makeRequestGo events total remaining (made + 1) (backoff * 2)
              lastError (sleeps ++ [r.retryAfter.getD (backoff * 2)])
          else if r.status ≥ 500 then
            makeRequestGo events total remaining (made + 1) (backoff * 2)
              lastError (sleeps ++ [backoff])
          else if r.status ≥ 400 then
            (Except.error ("API error " ++ toString r.status ++ ": " ++ r.errMsg),
             made + 1, sleeps)
          else
            (Except.ok r.body, made + 1, sleeps)

/-- `MistralOCREngine._make_request` with `retry_attempts = retryAttempts`
(`config.get("retry_attempts", MAX_RETRIES)`, the constant `MAX_RETRIES`
being 3) against the response stream `events`. -/
def makeRequest (retryAttempts : Nat) (events : Nat → NetEvent) :
    Except String String × Nat × List Nat :=
  makeRequestGo events retryAttempts retryAttempts 0 1 none []

/-- The `MAX_RETRIES` constant of `MistralOCREngine`. -/
def MAX_RETRIES : Nat := 3

/-- The common result record `OCRResult` of `ocr_strategy.py`.  `confidence`
(a Python float) and the entries of `blocks`, `layout` and `metadata` are
carried as `PyVal` scalars; only `text` and `layout` are inspected by the
properties verified here. -/
structure OCRRes where
  text : String
  confidence : PyVal
  blocks : List (List (String × PyVal))
  layout : Option (List (String × PyVal))
  metadata : Option (List (String × PyVal))
deriving Repr, DecidableEq

/-- `OCRResult.to_markdown`: Python
`if self.layout and self.layout.get("structured_text"): return
self.layout["structured_text"]` else `return self.text`.  The result is the
dict value (a `PyVal`), since Python returns it unchanged. -/
def toMarkdown (r : OCRRes) : PyVal :=
  match r.layout with
  | some l =>
      if !l.isEmpty && truthy ((alookup l "structured_text").getD PyVal.pyNone) then
        (alookup l "structured_text").getD PyVal.pyNone
      else
        PyVal.pyStr r.text
  | none => PyVal.pyStr r.text

/-- The supported-extension set `DocumentProcessor.SUPPORTED_EXTENSIONS`. -/
def SUPPORTED_EXTENSIONS : List String :=
  [".pdf", ".png", ".jpg", ".jpeg", ".tiff", ".tif", ".bmp", ".webp"]

/-- Split a character list on a separator character (used to model path
component splitting; the result is never empty). -/
def splitChar (c : Char) : List Char → List (List Char)
  | [] => [[]]
  | x :: xs =>
      let r := splitChar c xs
      if x = c then [] :: r
      else
        match r with
        | [] => [[x]]
        | y :: ys => (x :: y) :: ys

/-- The final path component, `pathlib.PurePath.name`. -/
def pathName (p : String) : String :=
  String.mk ((splitChar (Char.ofNat 47) p.data).getLastD p.data)

/-- ASCII lowercasing of a string, `str.lower()` as applied to file
extensions (which are ASCII). -/
def lowerStr (s : String) : String :=
  String.mk (s.data.map Char.toLower)

/-- The index of the last occurrence of `c` in `cs`, if any
(`str.rfind`). -/
def lastIdx (c : Char) (cs : List Char) : Option Nat :=
  (List.range cs.length).foldl
    (fun acc i => if cs.getD i ' ' = c then some i else acc) none

/-- `pathlib.PurePath.suffix`: the extension of the final component
including the dot; empty when the component has no interior dot (pathlib:
`i = name.rfind("."); name[i:] if 0 < i < len(name) - 1 else ""`). -/
def suffixOf (p : String) : String :=
  let cs := (pathName p).toList
  match lastIdx '.' cs with
  | some i => if 0 < i ∧ i < cs.length - 1 then String.mk (cs.drop i) else ""
  | none => ""

/-- Whether a path has a supported extension:
`f.suffix.lower() in SUPPORTED_EXTENSIONS`. -/
def isSupportedFile (p : String) : Bool :=
  SUPPORTED_EXTENSIONS.contains (lowerStr (suffixOf p))

/-- The processor-level configuration the `DocumentProcessor` reads:
`config["ocr"]["default_engine"]`, `config["ocr"]["engines"]` and
`config["ocr"]["output"]["formats"]`. -/
structure ProcConfig where
  defaultEngine : String
  engineConfigs : List (String × Config)
  outputFormats : List String

/-- The mutable state a `DocumentProcessor` run touches: the factory's
class-level state, the processor's own `_engine_cache` keyed by engine
name, and the log of object ids on which `cleanup()` has been invoked
(outside of `clear_cache`). -/
structure ProcState where
  factory : FactoryState
  engineCache : List (String × Inst)
  cleaned : List Nat

/-- The structured outcome dict returned by `process_document` and
accumulated by `batch_process`; absent keys are `none`. -/
structure Outcome where
  success : Bool
  error : Option String
  engine : Option String
  inputFile : Option String
  outputs : Option (List String)
  confidence : Option PyVal
  metadata : Option (List (String × PyVal))
deriving Repr, DecidableEq

/-- Python `x or dflt` for an optional string argument (`None` and the
empty string are falsy). -/
def orDefaultStr (x : Option String) (dflt : String) : String :=
  match x with
  | some s => if s = "" then dflt else s
  | none => dflt

/-- Python `x or dflt` for an optional list argument (`None` and the empty
list are falsy). -/
def orDefaultList (x : Option (List String)) (dflt : List String) :
    List String :=
  match x with
  | some l => if l.isEmpty then dflt else l
  | none => dflt

/-- `DocumentProcessor._get_engine`: serve from the processor's own cache,
otherwise build the per-engine config (forcing the `enabled` key to its
current defaulted value, as the source does before delegating), call
`OCREngineFactory.create_engine` with its default `use_fallback=True,
cache_instance=True`, cache and return the instance; a raised error is
swallowed and reported as `none`. -/
def getEngine (h : String → Int) (avail : List (String × EngineClass))
    (pc : ProcConfig) (st : ProcState) (engineName : String) :
    Option Inst × ProcState :=
  match alookup st.engineCache engineName with
  | some e => (some e, st)
  | none =>
      let ecfg0 := (alookup pc.engineConfigs engineName).getD []
      let ecfg := ainsert ecfg0 "enabled" (configGet ecfg0 "enabled" (PyVal.pyBool true))
      match createEngine h avail st.factory engineName ecfg true true with
      | (Except.ok inst, f1) =>
          (some inst,
           { st with factory := f1,
                     engineCache := ainsert st.engineCache engineName inst })
      | (Except.error _, f1) => (none, { st with factory := f1 })

/-- `_save_results`, abstracted from file IO: the keys of the returned
`outputs` dict, in the order the source writes them (markdown first, then
json); the timestamped file paths themselves are not modelled. -/
def saveResults (formats : List String) : List String :=
  (if formats.contains "markdown" then ["markdown"] else []) ++
  (if formats.contains "json" then ["json"] else [])

/-- `DocumentProcessor.process_document`.  `procFn` abstracts
`engine.process` (the external recognition call), `fs` is the set of
existing files.  On the success path the source calls `engine.cleanup()`
on the instance it got from `_get_engine`, which the model records in the
`cleaned` log. -/
def processDocument (h : String → Int) (avail : List (String × EngineClass))
    (procFn : Inst → String → Except String OCRRes) (pc : ProcConfig)
    (fs : List String) (st : ProcState) (filePath : String)
    (engineNameArg : Option String) (outputFormatsArg : Option (List String)) :
    Outcome × ProcState :=
  if !fs.contains filePath then
    ({ success := false, error := some ("File not found: " ++ filePath),
       engine := none, inputFile := some filePath, outputs := none,
       confidence := none, metadata := none }, st)
  else if !isSupportedFile filePath then
    ({ success := false,
       error := some ("Unsupported file format: " ++ suffixOf filePath),
       engine := none, inputFile := some filePath, outputs := none,
       confidence := none, metadata := none }, st)
  else
    let engineName := orDefaultStr engineNameArg pc.defaultEngine
    match getEngine h avail pc st engineName with
    | (none, st1) =>
        ({ success := false,
           error := some ("Failed to create engine: " ++ engineName),
           engine := none, inputFile := some filePath, outputs := none,
           confidence := none, metadata := none }, st1)
    | (some eng, st1) =>
        match procFn eng filePath with
        | Except.error e =>
            ({ success := false, error := some e, engine := some engineName,
               inputFile := some filePath, outputs := none,
               confidence := none, metadata := none }, st1)
        | Except.ok res =>
            let formats := orDefaultList outputFormatsArg pc.outputFormats
            let outs := saveResults formats
            ({ success := true, error := none, engine := some engineName,
               inputFile := some filePath, outputs := some outs,
               confidence := some res.confidence, metadata := res.metadata },
             { st1 with cleaned := st1.cleaned ++ [eng.objId] })

/-- `DocumentProcessor.batch_process`.  The directory is modelled by its
existence flag, its path (for the error message) and the ordered file
enumeration `entries` that `rglob`/`glob` produces; the supported files are
filtered out of it exactly as in the source, then processed in order while
threading the state. -/
def batchProcess (h : String → Int) (avail : List (String × EngineClass))
    (procFn : Inst → String → Except String OCRRes) (pc : ProcConfig)
    (fs : List String) (st : ProcState) (dirPath : String) (dirExists : Bool)
    (entries : List String) (engineNameArg : Option String)
    (outputFormatsArg : Option (List String)) : List Outcome × ProcState :=
  if !dirExists then
    ([{ success := false, error := some ("Directory not found: " ++ dirPath),
        engine := none, inputFile := none, outputs := none,
        confidence := none, metadata := none }], st)
  else
    let files := entries.filter isSupportedFile
    if files.isEmpty then
      ([{ success := false, error := some "No supported files found",
          engine := none, inputFile := none, outputs := none,
          confidence := none, metadata := none }], st)
    else
      files.foldl
        (fun acc f =>
          let r := processDocument h avail procFn pc fs acc.2 f
              engineNameArg outputFormatsArg
          (acc.1 ++ [r.1], r.2))
        ([], st)


/-- A concrete order-sensitive string hash used to instantiate the hash
parameter `h` in concrete runs; Python's per-process seeded string hash is
one such function. -/
def strHashEx (s : String) : Int :=
  s.data.foldl (fun a c => a * 31 + (c.toNat : Int)) 0

/-- Fixture: an engine class whose constructor always succeeds. -/
def ctorOkCls (n : String) : EngineClass :=
  { ename := n, ctor := fun _ => none }

/-- Fixture: an engine class whose constructor always raises `msg`. -/
def ctorFailCls (n msg : String) : EngineClass :=
  { ename := n, ctor := fun _ => some msg }

/-- Fixture: the initial (empty) factory state. -/
def st0 : FactoryState := { engines := [], instances := [], nextId := 0 }

/-- Fixture: a registry where only `tesseract` imported and its constructor
raises. -/
def availFail : List (String × EngineClass) :=
  [("tesseract", ctorFailCls "tesseract" "boom")]

/-- Fixture: a registry where only `paddleocr` imported and its constructor
succeeds. -/
def availOk : List (String × EngineClass) :=
  [("paddleocr", ctorOkCls "paddleocr")]

/-- Fixture: a plain result record. -/
def resT : OCRRes :=
  { text := "t", confidence := PyVal.pyInt 1, blocks := [], layout := none,
    metadata := none }

/-- Fixture: a recognition function that always succeeds with `resT`. -/
def procOkFn : Inst → String → Except String OCRRes :=
  fun _ _ => Except.ok resT

/-- Fixture: a processor configuration defaulting to `paddleocr` with no
per-engine options and markdown output. -/
def pcEx : ProcConfig :=
  { defaultEngine := "paddleocr", engineConfigs := [],
    outputFormats := ["markdown"] }

/-- Fixture: the initial processor state over the empty factory state. -/
def pst0 : ProcState :=
  { factory := st0, engineCache := [], cleaned := [] }

/-- Fixture: a result record whose layout carries a non-empty
`structured_text` entry. -/
def resMd : OCRRes :=
  { text := "plain", confidence := PyVal.pyInt 1, blocks := [],
    layout := some [("structured_text", PyVal.pyStr "md")], metadata := none }

/-- Fixture: a result record whose layout carries an empty
`structured_text` entry. -/
def resEmptyStruct : OCRRes :=
  { text := "plain", confidence := PyVal.pyInt 1, blocks := [],
    layout := some [("structured_text", PyVal.pyStr "")], metadata := none }

/-- The all-default failure outcome, used as the `getD` default when
indexing outcome lists. -/
def dOut : Outcome :=
  { success := false, error := none, engine := none, inputFile := none,
    outputs := none, confidence := none, metadata := none }

/-- The sequence of outcomes `batch_process` accumulates over a file list,
threading the state through consecutive `process_document` calls (the
recursive rendering of the source's accumulation loop). -/
def batchOutcomes (h : String → Int) (avail : List (String × EngineClass))
    (procFn : Inst → String → Except String OCRRes) (pc : ProcConfig)
    (fs : List String) (engineNameArg : Option String)
    (outputFormatsArg : Option (List String)) :
    List String → ProcState → List Outcome
  | [], _ => []
  | f :: rest, st =>
      let r := processDocument h avail procFn pc fs st f engineNameArg
        outputFormatsArg
      r.1 :: batchOutcomes h avail procFn pc fs engineNameArg
        outputFormatsArg rest r.2


theorem alookup_ainsert_self {α : Type} (l : List (String × α)) (k : String)
    (v : α) : alookup (ainsert l k v) k = some v := by
  induction l with
  | nil => simp [ainsert, alookup]
  | cons hd tl ih =>
      by_cases hh : (hd.1 == k) = true
      · have hf : List.find? (fun p => p.1 == k) (hd :: tl) = some hd :=
          List.find?_cons_of_pos _ hh
        simp only [ainsert, hf, Option.isSome_some, if_true, List.map_cons]
        have hhd : (if (hd.1 == k) = true then (k, v) else hd) = (k, v) :=
          if_pos hh
        rw [hhd]
        simp [alookup, List.find?_cons_of_pos]
      · have hf : List.find? (fun p => p.1 == k) (hd :: tl) =
            List.find? (fun p => p.1 == k) tl :=
          List.find?_cons_of_neg _ hh
        have hstep : ainsert (hd :: tl) k v = hd :: ainsert tl k v := by
          simp only [ainsert, hf, List.map_cons]
          split <;> rfl
        rw [hstep]
        unfold alookup at ih ⊢
        have hcons : List.find? (fun q => q.1 == k) (hd :: ainsert tl k v) =
            List.find? (fun q => q.1 == k) (ainsert tl k v) :=
          List.find?_cons_of_neg _ hh
        rw [hcons]
        exact ih

theorem fallbackErrors_cons_absent (s : FactoryState) (config : Config)
    (fe : String) (rest : List String)
    (hfe : alookup s.engines fe = none) :
    fallbackErrors s config (fe :: rest) = fallbackErrors s config rest := by
  simp [fallbackErrors, hfe]

theorem fallbackErrors_cons_fail (s : FactoryState) (config : Config)
    (fe : String) (rest : List String) (cls : EngineClass) (e : String)
    (hfe : alookup s.engines fe = some cls) (hc : cls.ctor config = some e) :
    fallbackErrors s config (fe :: rest) =
      (fe ++ ": " ++ e) :: fallbackErrors s config rest := by
  simp [fallbackErrors, hfe, hc]

theorem firstChainSuccess_cons_absent (s : FactoryState) (config : Config)
    (fe : String) (rest : List String)
    (hfe : alookup s.engines fe = none) :
    firstChainSuccess s config (fe :: rest) = firstChainSuccess s config rest := by
  simp [firstChainSuccess, hfe]

theorem firstChainSuccess_cons_fail (s : FactoryState) (config : Config)
    (fe : String) (rest : List String) (cls : EngineClass) (e : String)
    (hfe : alookup s.engines fe = some cls) (hc : cls.ctor config = some e) :
    firstChainSuccess s config (fe :: rest) = firstChainSuccess s config rest := by
  simp [firstChainSuccess, hfe, hc]

theorem fallbackGo_spec (s : FactoryState) (config : Config) (key : String)
    (ci : Bool) (chain : List String) (errors : List String) :
    fallbackGo s config key ci chain errors =
      match firstChainSuccess s config chain with
      | some cls =>
          (Except.ok { engineName := cls.ename, objId := s.nextId },
           if ci then
             { s with nextId := s.nextId + 1,
                      instances :=
                        ainsert s.instances key
                          { engineName := cls.ename, objId := s.nextId } }
           else { s with nextId := s.nextId + 1 })
      | none =>
          (Except.error
            ("Aucun moteur disponible. Erreurs: " ++
              String.intercalate "; " (errors ++ fallbackErrors s config chain)),
           s) := by
  induction chain generalizing errors with
  | nil => simp [fallbackGo, firstChainSuccess, fallbackErrors]
  | cons fe rest ih =>
      cases hfe : alookup s.engines fe with
      | none =>
          have hl : fallbackGo s config key ci (fe :: rest) errors =
              fallbackGo s config key ci rest errors := by
            simp [fallbackGo, hfe]
          rw [hl, firstChainSuccess_cons_absent s config fe rest hfe,
            fallbackErrors_cons_absent s config fe rest hfe]
          exact ih errors
      | some cls =>
          cases hc : cls.ctor config with
          | some e =>
              have hl : fallbackGo s config key ci (fe :: rest) errors =
                  fallbackGo s config key ci rest (errors ++ [fe ++ ": " ++ e]) := by
                simp [fallbackGo, hfe, hc]
              rw [hl, firstChainSuccess_cons_fail s config fe rest cls e hfe hc,
                fallbackErrors_cons_fail s config fe rest cls e hfe hc,
                ih (errors ++ [fe ++ ": " ++ e])]
              cases hfs : firstChainSuccess s config rest <;>
                simp [List.append_assoc]
          | none =>
              simp [fallbackGo, firstChainSuccess, hfe, hc]

theorem fallbackGo_engines (s : FactoryState) (config : Config) (key : String)
    (ci : Bool) (chain : List String) (errors : List String) :
    ((fallbackGo s config key ci chain errors).2).engines = s.engines := by
  rw [fallbackGo_spec]
  cases firstChainSuccess s config chain with
  | none => rfl
  | some cls => cases ci <;> rfl

theorem ensureRegistered_of_nonempty (avail : List (String × EngineClass))
    (s : FactoryState) (hne : s.engines ≠ []) :
    ensureRegistered avail s = s := by
  unfold ensureRegistered
  rw [if_neg]
  simp [List.isEmpty_iff, hne]

theorem createEngine_engines (h : String → Int)
    (avail : List (String × EngineClass)) (s0 : FactoryState)
    (engineName : String) (config : Config) (u ci : Bool) :
    ((createEngine h avail s0 engineName config u ci).2).engines =
      (ensureRegistered avail s0).engines := by
  unfold createEngine createWithFallback
  dsimp only
  repeat' split
  all_goals first
    | rfl
    | apply fallbackGo_engines

theorem ensureRegistered_createEngine (h : String → Int)
    (avail : List (String × EngineClass)) (s0 : FactoryState)
    (engineName : String) (config : Config) (u ci : Bool) :
    ensureRegistered avail ((createEngine h avail s0 engineName config u ci).2) =
      (createEngine h avail s0 engineName config u ci).2 := by
  have he := createEngine_engines h avail s0 engineName config u ci
  set t := (createEngine h avail s0 engineName config u ci).2 with ht
  clear ht
  clear_value t
  unfold ensureRegistered
  split
  · rename_i hemp
    have h0 : t.engines = [] := List.isEmpty_iff.mp hemp
    have ha : avail = [] := by
      rw [he] at h0
      unfold ensureRegistered at h0
      by_cases hs : s0.engines.isEmpty
      · simpa [hs] using h0
      · rw [if_neg hs] at h0
        exact absurd (List.isEmpty_iff.mpr h0) hs
    cases t with
    | mk e i n =>
        simp only at h0
        rw [ha, h0]
  · rfl

theorem createEngine_ok_cached (h : String → Int)
    (avail : List (String × EngineClass)) (s0 : FactoryState)
    (engineName : String) (config : Config) (u : Bool) (inst : Inst)
    (s1 : FactoryState)
    (hok : createEngine h avail s0 engineName config u true =
      (Except.ok inst, s1)) :
    alookup s1.instances (cacheKeyOf h engineName config) = some inst := by
  unfold createEngine createWithFallback at hok
  dsimp only at hok
  rw [fallbackGo_spec] at hok
  repeat' split at hok
  all_goals simp only [Prod.mk.injEq, Except.ok.injEq, if_true] at hok
  all_goals try (exact absurd hok.1 (by simp))
  all_goals
    obtain ⟨hi, hs⟩ := hok
  all_goals subst hi
  all_goals subst hs
  all_goals first
    | assumption
    | apply alookup_ainsert_self
    | simp_all

theorem firstChainSuccess_none_of_fail (s : FactoryState) (config : Config)
    (chain : List String)
    (hfail : ∀ fe ∈ chain, ∀ cls, alookup s.engines fe = some cls →
      cls.ctor config ≠ none) :
    firstChainSuccess s config chain = none := by
  induction chain with
  | nil => rfl
  | cons fe rest ih =>
      have ihr := ih fun fe2 hfe2 cls hcls =>
        hfail fe2 (List.mem_cons_of_mem fe hfe2) cls hcls
      cases hfe : alookup s.engines fe with
      | none => simp [firstChainSuccess, hfe, ihr]
      | some cls =>
          cases hc : cls.ctor config with
          | some e => simp [firstChainSuccess, hfe, hc, ihr]
          | none =>
              exact absurd hc (hfail fe (List.mem_cons_self fe rest) cls hfe)

theorem firstChainSuccess_mem (s : FactoryState) (config : Config)
    (chain : List String) (cls : EngineClass)
    (hfs : firstChainSuccess s config chain = some cls) :
    cls ∈ chain.filterMap fun fe => alookup s.engines fe := by
  induction chain with
  | nil => simp [firstChainSuccess] at hfs
  | cons fe rest ih =>
      cases hfe : alookup s.engines fe with
      | none =>
          rw [firstChainSuccess_cons_absent s config fe rest hfe] at hfs
          simpa [List.filterMap_cons, hfe] using ih hfs
      | some cls2 =>
          cases hc : cls2.ctor config with
          | some e =>
              rw [firstChainSuccess_cons_fail s config fe rest cls2 e hfe hc] at hfs
              simp only [List.filterMap_cons, hfe]
              exact List.mem_cons_of_mem cls2 (ih hfs)
          | none =>
              have : cls2 = cls := by
                simpa [firstChainSuccess, hfe, hc] using hfs
              subst this
              simp [List.filterMap_cons, hfe]

theorem createEngine_cache_hit (h : String → Int)
    (avail : List (String × EngineClass)) (s0 s : FactoryState)
    (engineName : String) (config : Config) (u : Bool) (inst : Inst)
    (hs : ensureRegistered avail s0 = s)
    (hc : alookup s.instances (cacheKeyOf h engineName config) = some inst) :
    createEngine h avail s0 engineName config u true = (Except.ok inst, s) := by
  unfold createEngine
  dsimp only
  rw [hs]
  simp only [reduceIte]
  rw [hc]

theorem createEngine_unknown_eq (h : String → Int)
    (avail : List (String × EngineClass)) (s0 s : FactoryState)
    (engineName : String) (config : Config) (u : Bool)
    (hs : ensureRegistered avail s0 = s)
    (hnc : alookup s.instances (cacheKeyOf h engineName config) = none)
    (hmiss : alookup s.engines engineName = none) :
    createEngine h avail s0 engineName config u true =
      if u then
        createWithFallback s config (cacheKeyOf h engineName config) true
      else
        (Except.error
          ("Moteur \x27" ++ engineName ++ "\x27 inconnu. Moteurs disponibles: " ++
            pyStrList (s.engines.map fun p => p.1)),
         s) := by
  unfold createEngine createWithFallback
  dsimp only
  rw [hs]
  simp only [reduceIte]
  rw [hnc]
  dsimp only
  rw [hmiss]

/-- C1: for an engine id absent from the registry, `create_engine` with
`use_fallback=False` raises an error naming the requested id and listing the
available ids; with `use_fallback=True` it returns an instance constructed
from a registered fallback-chain member when one succeeds, and otherwise
raises a no-engine-available error aggregating the collected per-engine
error messages, each prefixed with that engine's id. -/
theorem create_engine_unknown_spec (h : String → Int)
    (avail : List (String × EngineClass)) (s0 s : FactoryState)
    (engineName : String) (config : Config)
    (hs : ensureRegistered avail s0 = s)
    (hnc : alookup s.instances (cacheKeyOf h engineName config) = none)
    (hmiss : alookup s.engines engineName = none) :
    createEngine h avail s0 engineName config false true =
      (Except.error
        ("Moteur \x27" ++ engineName ++ "\x27 inconnu. Moteurs disponibles: " ++
          pyStrList (s.engines.map fun p => p.1)), s)
    ∧ (∀ cls, firstChainSuccess s config FALLBACK_CHAIN = some cls →
        (createEngine h avail s0 engineName config true true).1 =
          Except.ok { engineName := cls.ename, objId := s.nextId }
        ∧ cls ∈ FALLBACK_CHAIN.filterMap fun fe => alookup s.engines fe)
    ∧ ((∀ fe ∈ FALLBACK_CHAIN, ∀ cls, alookup s.engines fe = some cls →
          cls.ctor config ≠ none) →
        createEngine h avail s0 engineName config true true =
          (Except.error
            ("Aucun moteur disponible. Erreurs: " ++
              String.intercalate "; " (fallbackErrors s config FALLBACK_CHAIN)),
           s)) := by
  refine ⟨?_, ?_, ?_⟩
  · rw [createEngine_unknown_eq h avail s0 s engineName config false hs hnc hmiss]
    rfl
  · intro cls hfs
    constructor
    · rw [createEngine_unknown_eq h avail s0 s engineName config true hs hnc hmiss]
      simp only [reduceIte]
      unfold createWithFallback
      rw [fallbackGo_spec, hfs]
    · exact firstChainSuccess_mem s config FALLBACK_CHAIN cls hfs
  · intro hfail
    have hnone := firstChainSuccess_none_of_fail s config FALLBACK_CHAIN hfail
    rw [createEngine_unknown_eq h avail s0 s engineName config true hs hnc hmiss]
    simp only [reduceIte]
    unfold createWithFallback
    rw [fallbackGo_spec, hnone]
    simp

theorem create_engine_unknown_spec_witness :
    (createEngine strHashEx availFail st0 "nope" [] false true =
      (Except.error
        ("Moteur \x27nope\x27 inconnu. Moteurs disponibles: " ++
          pyStrList ((ensureRegistered availFail st0).engines.map fun p => p.1)),
       ensureRegistered availFail st0))
    ∧ ((createEngine strHashEx availOk st0 "nope" [] true true).1 =
        Except.ok { engineName := (ctorOkCls "paddleocr").ename,
                    objId := (ensureRegistered availOk st0).nextId })
    ∧ (createEngine strHashEx availFail st0 "nope" [] true true =
        (Except.error
          ("Aucun moteur disponible. Erreurs: " ++
            String.intercalate "; "
              (fallbackErrors (ensureRegistered availFail st0) [] FALLBACK_CHAIN)),
         ensureRegistered availFail st0)) := by
  refine ⟨?_, ?_, ?_⟩
  · exact (create_engine_unknown_spec strHashEx availFail st0 _ "nope" []
      rfl rfl rfl).1
  · exact ((create_engine_unknown_spec strHashEx availOk st0 _ "nope" []
      rfl rfl rfl).2.1 (ctorOkCls "paddleocr") rfl).1
  · refine (create_engine_unknown_spec strHashEx availFail st0 _ "nope" []
      rfl rfl rfl).2.2 ?_
    intro fe hfe cls hcls
    simp only [FALLBACK_CHAIN] at hfe
    fin_cases hfe
    · rw [show alookup (ensureRegistered availFail st0).engines "paddleocr" =
        none from rfl] at hcls
      exact Option.noConfusion hcls
    · rw [show alookup (ensureRegistered availFail st0).engines "tesseract" =
        some (ctorFailCls "tesseract" "boom") from rfl] at hcls
      cases Option.some.inj hcls
      intro habs
      exact Option.noConfusion habs
    · rw [show alookup (ensureRegistered availFail st0).engines "easyocr" =
        none from rfl] at hcls
      exact Option.noConfusion hcls

theorem createEngine_trigger_fallback (h : String → Int)
    (avail : List (String × EngineClass)) (s0 s : FactoryState)
    (engineName : String) (config : Config)
    (hs : ensureRegistered avail s0 = s)
    (hnc : alookup s.instances (cacheKeyOf h engineName config) = none)
    (htrig : alookup s.engines engineName = none
      ∨ (∃ cls, alookup s.engines engineName = some cls ∧
          truthy (configGet config "enabled" (PyVal.pyBool true)) = false)
      ∨ (∃ cls e, alookup s.engines engineName = some cls ∧
          truthy (configGet config "enabled" (PyVal.pyBool true)) = true ∧
          cls.ctor config = some e)) :
    createEngine h avail s0 engineName config true true =
      createWithFallback s config (cacheKeyOf h engineName config) true := by
  unfold createEngine
  dsimp only
  rw [hs]
  simp only [reduceIte]
  rw [hnc]
  dsimp only
  rcases htrig with hmiss | ⟨cls, hcls, hdis⟩ | ⟨cls, e, hcls, hen, hctor⟩
  · rw [hmiss]
  · rw [hcls]
    dsimp only
    rw [hdis, if_pos rfl]
  · rw [hcls]
    dsimp only
    rw [hen, if_neg (show ¬(true = false) by decide)]
    rw [hctor]

/-- C2: when `create_engine(id, config, use_fallback=True,
cache_instance=True)` resolves through the fallback chain (the id being
unknown, disabled, or its construction raising), the first successfully
constructed fallback instance is cached under the cache key of the original
request, and a second identical call returns that same instance directly
from the cache, leaving the state unchanged. -/
theorem fallback_caches_original_key (h : String → Int)
    (avail : List (String × EngineClass)) (s0 s : FactoryState)
    (engineName : String) (config : Config) (cls0 : EngineClass)
    (hs : ensureRegistered avail s0 = s)
    (hnc : alookup s.instances (cacheKeyOf h engineName config) = none)
    (htrig : alookup s.engines engineName = none
      ∨ (∃ cls, alookup s.engines engineName = some cls ∧
          truthy (configGet config "enabled" (PyVal.pyBool true)) = false)
      ∨ (∃ cls e, alookup s.engines engineName = some cls ∧
          truthy (configGet config "enabled" (PyVal.pyBool true)) = true ∧
          cls.ctor config = some e))
    (hfs : firstChainSuccess s config FALLBACK_CHAIN = some cls0) :
    (createEngine h avail s0 engineName config true true).1 =
      Except.ok { engineName := cls0.ename, objId := s.nextId }
    ∧ alookup ((createEngine h avail s0 engineName config true true).2).instances
        (cacheKeyOf h engineName config) =
        some { engineName := cls0.ename, objId := s.nextId }
    ∧ createEngine h avail
        ((createEngine h avail s0 engineName config true true).2)
        engineName config true true =
        ((createEngine h avail s0 engineName config true true).1,
         (createEngine h avail s0 engineName config true true).2) := by
  have hred := createEngine_trigger_fallback h avail s0 s engineName config
    hs hnc htrig
  have hfb : createWithFallback s config (cacheKeyOf h engineName config) true =
      (Except.ok { engineName := cls0.ename, objId := s.nextId },
       { s with nextId := s.nextId + 1,
                instances := ainsert s.instances (cacheKeyOf h engineName config)
                  { engineName := cls0.ename, objId := s.nextId } }) := by
    unfold createWithFallback
    rw [fallbackGo_spec, hfs]
    dsimp only
    rw [if_pos rfl]
  have hok := hred.trans hfb
  have hc1 : (createEngine h avail s0 engineName config true true).1 =
      Except.ok { engineName := cls0.ename, objId := s.nextId } := by
    rw [hok]
  have hc2 : alookup
      ((createEngine h avail s0 engineName config true true).2).instances
      (cacheKeyOf h engineName config) =
      some { engineName := cls0.ename, objId := s.nextId } := by
    rw [hok]
    exact alookup_ainsert_self s.instances (cacheKeyOf h engineName config) _
  refine ⟨hc1, hc2, ?_⟩
  have hens := ensureRegistered_createEngine h avail s0 engineName config
    true true
  have h2 := createEngine_cache_hit h avail
    ((createEngine h avail s0 engineName config true true).2)
    ((createEngine h avail s0 engineName config true true).2)
    engineName config true
    { engineName := cls0.ename, objId := s.nextId } hens hc2
  rw [h2, hc1]

theorem fallback_caches_original_key_witness :
    ((createEngine strHashEx availOk st0 "mistral" [] true true).1 =
      Except.ok { engineName := (ctorOkCls "paddleocr").ename,
                  objId := (ensureRegistered availOk st0).nextId })
    ∧ alookup ((createEngine strHashEx availOk st0 "mistral" [] true true).2).instances
        (cacheKeyOf strHashEx "mistral" []) =
        some { engineName := (ctorOkCls "paddleocr").ename,
               objId := (ensureRegistered availOk st0).nextId }
    ∧ createEngine strHashEx availOk
        ((createEngine strHashEx availOk st0 "mistral" [] true true).2)
        "mistral" [] true true =
        ((createEngine strHashEx availOk st0 "mistral" [] true true).1,
         (createEngine strHashEx availOk st0 "mistral" [] true true).2) :=
  fallback_caches_original_key strHashEx availOk st0
    (ensureRegistered availOk st0) "mistral" [] (ctorOkCls "paddleocr")
    rfl rfl (Or.inl rfl) rfl

/-- C3: two consecutive `create_engine(id, config, cache_instance=True)`
calls with the same config return the identical instance object (the same
allocation id, modelling Python object identity): whenever the first call
returns an instance, the second call serves it from the instance cache and
leaves the state untouched. -/
theorem create_engine_cache_identity (h : String → Int)
    (avail : List (String × EngineClass)) (s0 : FactoryState)
    (engineName : String) (config : Config) (u : Bool) (inst : Inst)
    (s1 : FactoryState)
    (hok : createEngine h avail s0 engineName config u true =
      (Except.ok inst, s1)) :
    createEngine h avail s1 engineName config u true = (Except.ok inst, s1) := by
  have hcached := createEngine_ok_cached h avail s0 engineName config u inst s1 hok
  have hens : ensureRegistered avail s1 = s1 := by
    have h2 := ensureRegistered_createEngine h avail s0 engineName config u true
    rw [hok] at h2
    exact h2
  exact createEngine_cache_hit h avail s1 s1 engineName config u inst hens hcached

theorem create_engine_cache_identity_witness :
    createEngine strHashEx availOk
      ((createEngine strHashEx availOk st0 "paddleocr" [] true true).2)
      "paddleocr" [] true true =
      (Except.ok { engineName := "paddleocr", objId := 0 },
       (createEngine strHashEx availOk st0 "paddleocr" [] true true).2) :=
  create_engine_cache_identity strHashEx availOk st0 "paddleocr" [] true
    { engineName := "paddleocr", objId := 0 }
    ((createEngine strHashEx availOk st0 "paddleocr" [] true true).2) rfl

theorem alookup_eq_none_of_not_mem {α : Type} (l : List (String × α))
    (k : String) (hk : k ∉ l.map Prod.fst) : alookup l k = none := by
  induction l with
  | nil => rfl
  | cons hd tl ih =>
      simp only [List.map_cons, List.mem_cons] at hk
      push_neg at hk
      have hne : (hd.1 == k) = false :=
        beq_eq_false_iff_ne.mpr (Ne.symm hk.1)
      unfold alookup at ih ⊢
      rw [List.find?_cons_of_neg _ (by simp [hne])]
      exact ih hk.2

theorem assoc_ext {α : Type} : ∀ (c1 c2 : List (String × α)),
    c1.map Prod.fst = c2.map Prod.fst →
    (c1.map Prod.fst).Nodup →
    (∀ k, alookup c1 k = alookup c2 k) → c1 = c2 := by
  intro c1
  induction c1 with
  | nil =>
      intro c2 hk _ _
      exact (List.map_eq_nil_iff.mp hk.symm).symm
  | cons p1 t1 ih =>
      intro c2 hk hnd hl
      cases c2 with
      | nil => simp at hk
      | cons p2 t2 =>
          simp only [List.map_cons, List.cons.injEq] at hk
          obtain ⟨hk0, hkt⟩ := hk
          have hv : some p1.2 = some p2.2 := by
            have h1 := hl p1.1
            rw [show alookup (p1 :: t1) p1.1 = some p1.2 from by
              simp [alookup, List.find?_cons]] at h1
            rw [show alookup (p2 :: t2) p1.1 = some p2.2 from by
              simp [alookup, List.find?_cons, hk0.symm]] at h1
            exact h1
          simp only [List.map_cons, List.nodup_cons] at hnd
          have hnd2 : p1.1 ∉ t2.map Prod.fst := by
            rw [← hkt]
            exact hnd.1
          have hlt : ∀ k, alookup t1 k = alookup t2 k := by
            intro k
            by_cases hkk : k = p1.1
            · subst hkk
              rw [alookup_eq_none_of_not_mem t1 p1.1 hnd.1,
                alookup_eq_none_of_not_mem t2 p1.1 hnd2]
            · have h1 := hl k
              have hb1 : (p1.1 == k) = false :=
                beq_eq_false_iff_ne.mpr (Ne.symm hkk)
              have hb2 : (p2.1 == k) = false :=
                beq_eq_false_iff_ne.mpr (hk0 ▸ Ne.symm hkk)
              have e1 : alookup (p1 :: t1) k = alookup t1 k := by
                unfold alookup
                rw [List.find?_cons_of_neg _ (by simp [hb1])]
              have e2 : alookup (p2 :: t2) k = alookup t2 k := by
                unfold alookup
                rw [List.find?_cons_of_neg _ (by simp [hb2])]
              rw [e1, e2] at h1
              exact h1
          have ht := ih t2 hkt hnd.2 hlt
          have hp : p1 = p2 := by
            cases p1
            cases p2
            simp only at hk0
            cases hk0
            cases Option.some.inj hv
            rfl
          rw [hp, ht]

/-- C4 counterexample: the cache key is computed from `hash(str(config))`,
and `str` of a Python dict depends on insertion order, so two configs with
equal content but different insertion order do not in general map to the
same cache key — refuting determinism of the fingerprint over config
*content* for the family of seeded string hashes. -/
theorem cache_key_order_counterexample :
    ¬ (∀ (h : String → Int) (engineName : String) (c1 c2 : Config),
        (∀ k, alookup c1 k = alookup c2 k) →
        cacheKeyOf h engineName c1 = cacheKeyOf h engineName c2) := by
  intro hcl
  have hcontent : ∀ k,
      alookup [("a", PyVal.pyInt 1), ("b", PyVal.pyInt 2)] k =
      alookup [("b", PyVal.pyInt 2), ("a", PyVal.pyInt 1)] k := by
    intro k
    by_cases ha : k = "a"
    · subst ha
      rfl
    · by_cases hb : k = "b"
      · subst hb
        rfl
      · have h1 : ("a" == k) = false := beq_eq_false_iff_ne.mpr (Ne.symm ha)
        have h2 : ("b" == k) = false := beq_eq_false_iff_ne.mpr (Ne.symm hb)
        simp [alookup, List.find?_cons, h1, h2]
  have hkeys := hcl strHashEx "tesseract"
    [("a", PyVal.pyInt 1), ("b", PyVal.pyInt 2)]
    [("b", PyVal.pyInt 2), ("a", PyVal.pyInt 1)] hcontent
  exact absurd hkeys (by decide)

/-- C4 amended: the cache fingerprint is deterministic for configs with
equal content presented in the same insertion order — if two configs have
identical (duplicate-free) key sequences and equal content, their cache keys
coincide for every hash function; equal content in a different insertion
order may yield a different key (see the counterexample). -/
theorem cache_key_same_order_deterministic (h : String → Int)
    (engineName : String) (c1 c2 : Config)
    (hk : c1.map Prod.fst = c2.map Prod.fst)
    (hnd : (c1.map Prod.fst).Nodup)
    (hl : ∀ k, alookup c1 k = alookup c2 k) :
    cacheKeyOf h engineName c1 = cacheKeyOf h engineName c2 := by
  rw [assoc_ext c1 c2 hk hnd hl]

theorem cache_key_same_order_deterministic_witness :
    cacheKeyOf strHashEx "tesseract"
      [("a", PyVal.pyInt 1), ("b", PyVal.pyInt 2)] =
    cacheKeyOf strHashEx "tesseract"
      [("a", PyVal.pyInt 1), ("b", PyVal.pyInt 2)] :=
  cache_key_same_order_deterministic strHashEx "tesseract"
    [("a", PyVal.pyInt 1), ("b", PyVal.pyInt 2)]
    [("a", PyVal.pyInt 1), ("b", PyVal.pyInt 2)]
    rfl (by decide) (fun _ => rfl)

/-- C5: `auto_select_engine` is pure — when the registry is already
populated it returns its recommendation without changing any state, a
repeated call with identical arguments returns the same id, and under the
`cost` priority the recommendation is always one of the free traditional
engines (per the factory's own engine-information table). -/
theorem auto_select_pure_cost_free (avail : List (String × EngineClass))
    (s : FactoryState) (priority : SelectionPriority)
    (documentType : Option String) (complexity : DocumentComplexity)
    (hasGpu : Bool) (hne : s.engines ≠ []) :
    (autoSelectEngine avail s priority documentType complexity hasGpu).2 = s
    ∧ autoSelectEngine avail
        ((autoSelectEngine avail s priority documentType complexity hasGpu).2)
        priority documentType complexity hasGpu =
        autoSelectEngine avail s priority documentType complexity hasGpu
    ∧ ((autoSelectEngine avail s SelectionPriority.cost documentType
          complexity hasGpu).1 ∈ ["tesseract", "easyocr", "paddleocr"]
       ∧ engineInfoCost (autoSelectEngine avail s SelectionPriority.cost
           documentType complexity hasGpu).1 = some "free"
       ∧ engineInfoType (autoSelectEngine avail s SelectionPriority.cost
           documentType complexity hasGpu).1 = some "traditional") := by
  have hens : ensureRegistered avail s = s :=
    ensureRegistered_of_nonempty avail s hne
  have h1 : ∀ p, autoSelectEngine avail s p documentType complexity hasGpu =
      (autoSelectChoice s.engines p documentType complexity hasGpu, s) := by
    intro p
    unfold autoSelectEngine
    rw [hens]
  refine ⟨by rw [h1], ?_, ?_⟩
  · rw [h1]
    exact h1 priority
  · rw [h1]
    have hchoice : autoSelectChoice s.engines SelectionPriority.cost
        documentType complexity hasGpu = "tesseract"
        ∨ autoSelectChoice s.engines SelectionPriority.cost
            documentType complexity hasGpu = "easyocr"
        ∨ autoSelectChoice s.engines SelectionPriority.cost
            documentType complexity hasGpu = "paddleocr" := by
      by_cases ht : (alookup s.engines "tesseract").isSome <;>
        by_cases he : (alookup s.engines "easyocr").isSome <;>
          simp [autoSelectChoice, ht, he]
    rcases hchoice with hc | hc | hc <;> rw [hc] <;>
      exact ⟨by simp, rfl, rfl⟩

theorem auto_select_pure_cost_free_witness :
    (autoSelectEngine availOk (FactoryState.mk availOk [] 0)
        SelectionPriority.cost none DocumentComplexity.medium false).2 =
      FactoryState.mk availOk [] 0
    ∧ autoSelectEngine availOk
        ((autoSelectEngine availOk (FactoryState.mk availOk [] 0)
            SelectionPriority.cost none DocumentComplexity.medium false).2)
        SelectionPriority.cost none DocumentComplexity.medium false =
        autoSelectEngine availOk (FactoryState.mk availOk [] 0)
          SelectionPriority.cost none DocumentComplexity.medium false
    ∧ ((autoSelectEngine availOk (FactoryState.mk availOk [] 0)
          SelectionPriority.cost none DocumentComplexity.medium false).1
          ∈ ["tesseract", "easyocr", "paddleocr"]
       ∧ engineInfoCost (autoSelectEngine availOk (FactoryState.mk availOk [] 0)
           SelectionPriority.cost none DocumentComplexity.medium false).1 =
           some "free"
       ∧ engineInfoType (autoSelectEngine availOk (FactoryState.mk availOk [] 0)
           SelectionPriority.cost none DocumentComplexity.medium false).1 =
           some "traditional") :=
  auto_select_pure_cost_free availOk (FactoryState.mk availOk [] 0)
    SelectionPriority.cost none DocumentComplexity.medium false
    (by simp [availOk])

/-- C6: the remote-API request loop retries HTTP 5xx and 429 with
exponentially doubling backoff up to the attempt cap, and raises
immediately (one single request, no sleep) on any other 4xx; in particular
three consecutive HTTP 500 responses followed by an HTTP 200 on the fourth
attempt, within the cap, return the HTTP 200 payload after sleeping
1, 2 and 4 seconds. -/
theorem makeRequestGo_exhaust (events : Nat → NetEvent) (total : Nat) :
    ∀ (n made backoff : Nat) (le : Option String) (sleeps : List Nat),
      (∀ i, i < n → ∃ r, events (made + i) = NetEvent.resp r ∧
        (r.status = 429 ∨ 500 ≤ r.status)) →
      (makeRequestGo events total n made backoff le sleeps).1 =
        Except.error ("All " ++ toString total ++ " attempts failed. Last error: "
          ++ lastErrorStr le)
      ∧ (makeRequestGo events total n made backoff le sleeps).2.1 = made + n := by
  intro n
  induction n with
  | zero =>
      intro made backoff le sleeps _
      exact ⟨rfl, rfl⟩
  | succ n ih =>
      intro made backoff le sleeps h
      obtain ⟨r, her, hst⟩ := h 0 (Nat.succ_pos n)
      rw [Nat.add_zero] at her
      have hshift : ∀ i, i < n → ∃ r2, events (made + 1 + i) = NetEvent.resp r2 ∧
          (r2.status = 429 ∨ 500 ≤ r2.status) := by
        intro i hi
        have h2 := h (i + 1) (by omega)
        rw [show made + (i + 1) = made + 1 + i from by omega] at h2
        exact h2
      rcases hst with h429 | h5xx
      · have hb : (r.status == 429) = true := by simp [h429]
        have hstep : makeRequestGo events total (n + 1) made backoff le sleeps =
            makeRequestGo events total n (made + 1) (backoff * 2) le
              (sleeps ++ [r.retryAfter.getD (backoff * 2)]) := by
          simp only [makeRequestGo, her]
          rw [if_pos hb]
        rw [hstep]
        have hr := ih (made + 1) (backoff * 2) le
          (sleeps ++ [r.retryAfter.getD (backoff * 2)]) hshift
        exact ⟨hr.1, by rw [hr.2]; omega⟩
      · have hb : ¬((r.status == 429) = true) := by
          simp only [beq_iff_eq]
          omega
        have hstep : makeRequestGo events total (n + 1) made backoff le sleeps =
            makeRequestGo events total n (made + 1) (backoff * 2) le
              (sleeps ++ [backoff]) := by
          simp only [makeRequestGo, her]
          rw [if_neg hb, if_pos h5xx]
        rw [hstep]
        have hr := ih (made + 1) (backoff * 2) le (sleeps ++ [backoff]) hshift
        exact ⟨hr.1, by rw [hr.2]; omega⟩

/-- C6: the remote-API request loop retries HTTP 5xx and 429 with
exponentially doubling backoff up to the attempt cap, and raises
immediately (one single request, no sleep) on any other 4xx.  Three
consecutive HTTP 500 responses followed by an HTTP 200 on the fourth
attempt, within the cap, return the HTTP 200 payload after sleeping 1, 2
and 4 seconds; two HTTP 429 responses without a Retry-After header are
likewise retried, sleeping the doubled backoff 2 then 4 seconds, and the
following HTTP 200 payload is returned; and when every response within the
cap is an HTTP 5xx or 429, the loop stops after exactly `retry_attempts`
requests with the all-attempts-failed error. -/
theorem mistral_retry_spec :
    (∀ (cap : Nat), 4 ≤ cap → ∀ (events : Nat → NetEvent)
        (r1 r2 r3 r4 : RespEv),
      events 0 = NetEvent.resp r1 → r1.status = 500 →
      events 1 = NetEvent.resp r2 → r2.status = 500 →
      events 2 = NetEvent.resp r3 → r3.status = 500 →
      events 3 = NetEvent.resp r4 → r4.status = 200 →
      makeRequest cap events = (Except.ok r4.body, 4, [1, 2, 4]))
    ∧ (∀ (cap : Nat), 1 ≤ cap → ∀ (events : Nat → NetEvent) (r : RespEv),
      events 0 = NetEvent.resp r →
      400 ≤ r.status → r.status < 500 → r.status ≠ 429 →
      makeRequest cap events =
        (Except.error ("API error " ++ toString r.status ++ ": " ++ r.errMsg),
         1, []))
    ∧ (∀ (cap : Nat), 3 ≤ cap → ∀ (events : Nat → NetEvent)
        (r1 r2 r3 : RespEv),
      events 0 = NetEvent.resp r1 → r1.status = 429 → r1.retryAfter = none →
      events 1 = NetEvent.resp r2 → r2.status = 429 → r2.retryAfter = none →
      events 2 = NetEvent.resp r3 → r3.status = 200 →
      makeRequest cap events = (Except.ok r3.body, 3, [2, 4]))
    ∧ (∀ (cap : Nat) (events : Nat → NetEvent),
      (∀ i, i < cap → ∃ r, events i = NetEvent.resp r ∧
        (r.status = 429 ∨ 500 ≤ r.status)) →
      (makeRequest cap events).1 =
        Except.error
          ("All " ++ toString cap ++ " attempts failed. Last error: " ++ "None")
      ∧ (makeRequest cap events).2.1 = cap) := by
  refine ⟨?_, ?_, ?_, ?_⟩
  · intro cap hcap events r1 r2 r3 r4 h0 hs1 h1 hs2 h2 hs3 h3 hs4
    obtain ⟨m, rfl⟩ : ∃ m, cap = m + 1 + 1 + 1 + 1 := ⟨cap - 4, by omega⟩
    unfold makeRequest
    simp [makeRequestGo, h0, h1, h2, h3, hs1, hs2, hs3, hs4]
  · intro cap hcap events r h0 hge hlt hne
    obtain ⟨m, rfl⟩ : ∃ m, cap = m + 1 := ⟨cap - 1, by omega⟩
    unfold makeRequest
    simp only [makeRequestGo, h0]
    rw [if_neg (show ¬((r.status == 429) = true) from by simp [hne]),
      if_neg (show ¬(r.status ≥ 500) from by omega),
      if_pos (show r.status ≥ 400 from hge)]
  · intro cap hcap events r1 r2 r3 h0 hs1 hra1 h1 hs2 hra2 h2 hs3
    obtain ⟨m, rfl⟩ : ∃ m, cap = m + 1 + 1 + 1 := ⟨cap - 3, by omega⟩
    unfold makeRequest
    simp [makeRequestGo, h0, h1, h2, hs1, hs2, hs3, hra1, hra2]
  · intro cap events h
    unfold makeRequest
    have hr := makeRequestGo_exhaust events cap cap 0 1 none []
      (by intro i hi; simpa using h i hi)
    refine ⟨?_, ?_⟩
    · rw [hr.1]
      simp only [lastErrorStr]
    · rw [hr.2]
      omega

theorem mistral_retry_spec_witness :
    makeRequest 4
      (fun i =>
        [NetEvent.resp { status := 500, body := "e1", errMsg := "m1", retryAfter := none },
          NetEvent.resp { status := 500, body := "e2", errMsg := "m2", retryAfter := none },
          NetEvent.resp { status := 500, body := "e3", errMsg := "m3", retryAfter := none },
          NetEvent.resp { status := 200, body := "payload", errMsg := "", retryAfter := none }].getD
          i (NetEvent.connError "x")) =
      (Except.ok "payload", 4, [1, 2, 4])
    ∧ makeRequest 3
        (fun _ =>
          NetEvent.resp { status := 400, body := "b", errMsg := "bad", retryAfter := none }) =
        (Except.error "API error 400: bad", 1, [])
    ∧ makeRequest 3
        (fun i =>
          [NetEvent.resp { status := 429, body := "e1", errMsg := "m1", retryAfter := none },
            NetEvent.resp { status := 429, body := "e2", errMsg := "m2", retryAfter := none },
            NetEvent.resp { status := 200, body := "payload2", errMsg := "", retryAfter := none }].getD
            i (NetEvent.connError "x")) =
        (Except.ok "payload2", 3, [2, 4])
    ∧ (makeRequest 2
        (fun _ =>
          NetEvent.resp { status := 503, body := "e", errMsg := "m", retryAfter := none })).1 =
        Except.error "All 2 attempts failed. Last error: None"
    ∧ (makeRequest 2
        (fun _ =>
          NetEvent.resp { status := 503, body := "e", errMsg := "m", retryAfter := none })).2.1 =
        2 :=
  ⟨mistral_retry_spec.1 4 (by decide) _
      { status := 500, body := "e1", errMsg := "m1", retryAfter := none }
      { status := 500, body := "e2", errMsg := "m2", retryAfter := none }
      { status := 500, body := "e3", errMsg := "m3", retryAfter := none }
      { status := 200, body := "payload", errMsg := "", retryAfter := none }
      rfl rfl rfl rfl rfl rfl rfl rfl,
   mistral_retry_spec.2.1 3 (by decide) _
      { status := 400, body := "b", errMsg := "bad", retryAfter := none }
      rfl (by decide) (by decide) (by decide),
   mistral_retry_spec.2.2.1 3 (by decide) _
      { status := 429, body := "e1", errMsg := "m1", retryAfter := none }
      { status := 429, body := "e2", errMsg := "m2", retryAfter := none }
      { status := 200, body := "payload2", errMsg := "", retryAfter := none }
      rfl rfl rfl rfl rfl rfl rfl rfl,
   (mistral_retry_spec.2.2.2 2 _
      (fun i hi =>
        ⟨{ status := 503, body := "e", errMsg := "m", retryAfter := none },
         rfl, Or.inr (by decide)⟩)).1,
   (mistral_retry_spec.2.2.2 2 _
      (fun i hi =>
        ⟨{ status := 503, body := "e", errMsg := "m", retryAfter := none },
         rfl, Or.inr (by decide)⟩)).2⟩

/-- C7 (code evidence): on its success path `process_document` calls
`cleanup()` on the engine instance obtained from `_get_engine`, and that
instance is resident in the factory's instance cache because
`create_engine` ran with its default `cache_instance=True`: in this
concrete successful run, object id 0 is both the sole cleaned object and
the sole cache-resident instance — contradicting the requirement that only
`clear_cache()` may clean a cached instance. -/
theorem process_document_cleanup_on_cached :
    ((processDocument strHashEx availOk procOkFn pcEx ["doc.png"] pst0
        "doc.png" none none).2).cleaned = [0]
    ∧ ((processDocument strHashEx availOk procOkFn pcEx ["doc.png"] pst0
        "doc.png" none none).2).factory.instances.map (fun p => p.2) =
      [{ engineName := "paddleocr", objId := 0 }]
    ∧ ((processDocument strHashEx availOk procOkFn pcEx ["doc.png"] pst0
        "doc.png" none none).1).success = true := by
  refine ⟨?_, ?_, ?_⟩ <;> decide

theorem processDocument_inputFile (h : String → Int)
    (avail : List (String × EngineClass))
    (procFn : Inst → String → Except String OCRRes) (pc : ProcConfig)
    (fs : List String) (st : ProcState) (filePath : String)
    (engineNameArg : Option String)
    (outputFormatsArg : Option (List String)) :
    ((processDocument h avail procFn pc fs st filePath engineNameArg
        outputFormatsArg).1).inputFile = some filePath := by
  unfold processDocument
  dsimp only
  repeat' split
  all_goals rfl

theorem batchOutcomes_length (h : String → Int)
    (avail : List (String × EngineClass))
    (procFn : Inst → String → Except String OCRRes) (pc : ProcConfig)
    (fs : List String) (engineNameArg : Option String)
    (outputFormatsArg : Option (List String)) :
    ∀ (files : List String) (st : ProcState),
      (batchOutcomes h avail procFn pc fs engineNameArg outputFormatsArg
        files st).length = files.length := by
  intro files
  induction files with
  | nil => intro st; rfl
  | cons f rest ih =>
      intro st
      simp [batchOutcomes, ih]

theorem batchOutcomes_getD (h : String → Int)
    (avail : List (String × EngineClass))
    (procFn : Inst → String → Except String OCRRes) (pc : ProcConfig)
    (fs : List String) (engineNameArg : Option String)
    (outputFormatsArg : Option (List String)) :
    ∀ (files : List String) (st : ProcState) (i : Nat), i < files.length →
      ((batchOutcomes h avail procFn pc fs engineNameArg outputFormatsArg
          files st).getD i dOut).inputFile = some (files.getD i "") := by
  intro files
  induction files with
  | nil => intro st i hi; simp at hi
  | cons f rest ih =>
      intro st i hi
      cases i with
      | zero =>
          simpa [batchOutcomes] using
            processDocument_inputFile h avail procFn pc fs st f
              engineNameArg outputFormatsArg
      | succ j =>
          have hj : j < rest.length := by simpa using hi
          simpa [batchOutcomes] using ih _ j hj

theorem batchProcess_foldl (h : String → Int)
    (avail : List (String × EngineClass))
    (procFn : Inst → String → Except String OCRRes) (pc : ProcConfig)
    (fs : List String) (engineNameArg : Option String)
    (outputFormatsArg : Option (List String)) :
    ∀ (files : List String) (st : ProcState) (acc : List Outcome),
      (files.foldl
        (fun acc f =>
          let r := processDocument h avail procFn pc fs acc.2 f
            engineNameArg outputFormatsArg
          (acc.1 ++ [r.1], r.2)) (acc, st)).1 =
      acc ++ batchOutcomes h avail procFn pc fs engineNameArg
        outputFormatsArg files st := by
  intro files
  induction files with
  | nil => intro st acc; simp [batchOutcomes]
  | cons f rest ih =>
      intro st acc
      simp only [List.foldl_cons, batchOutcomes]
      rw [ih]
      simp

/-- C8 counterexample: over an existing directory whose enumeration holds
one unsupported file and no supported file (N = 0, M = 1), `batch_process`
returns one outcome (the "No supported files found" failure entry), not
N = 0 outcomes, so the claim is false as a universal statement over N. -/
theorem batch_process_zero_supported_counterexample :
    ((batchProcess strHashEx availOk procOkFn pcEx [] pst0 "d" true
        ["d/notes.txt"] none none).1).length ≠
      (["d/notes.txt"].filter isSupportedFile).length := by
  decide

/-- C8 amended: for an existing directory whose enumeration contains at
least one supported file, `batch_process` returns exactly one outcome per
supported file, in processing order (each outcome carries the matching
input file; unsupported files are filtered out beforehand, not reported),
and this holds for every recognition behaviour `procFn` — a failing file's
outcome never stops the remaining files from producing theirs. -/
theorem batch_process_outcome_per_supported_file (h : String → Int)
    (avail : List (String × EngineClass))
    (procFn : Inst → String → Except String OCRRes) (pc : ProcConfig)
    (fs : List String) (st : ProcState) (dirPath : String)
    (entries : List String) (engineNameArg : Option String)
    (outputFormatsArg : Option (List String))
    (hne : entries.filter isSupportedFile ≠ []) :
    ((batchProcess h avail procFn pc fs st dirPath true entries
        engineNameArg outputFormatsArg).1).length =
      (entries.filter isSupportedFile).length
    ∧ ∀ i, i < (entries.filter isSupportedFile).length →
        (((batchProcess h avail procFn pc fs st dirPath true entries
            engineNameArg outputFormatsArg).1).getD i dOut).inputFile =
          some ((entries.filter isSupportedFile).getD i "") := by
  have hbatch : (batchProcess h avail procFn pc fs st dirPath true entries
      engineNameArg outputFormatsArg).1 =
      batchOutcomes h avail procFn pc fs engineNameArg outputFormatsArg
        (entries.filter isSupportedFile) st := by
    unfold batchProcess
    rw [if_neg (by simp)]
    dsimp only
    rw [if_neg (by simp [List.isEmpty_iff, hne])]
    have := batchProcess_foldl h avail procFn pc fs engineNameArg
      outputFormatsArg (entries.filter isSupportedFile) st []
    simpa using this
  constructor
  · rw [hbatch]
    exact batchOutcomes_length h avail procFn pc fs engineNameArg
      outputFormatsArg (entries.filter isSupportedFile) st
  · intro i hi
    rw [hbatch]
    exact batchOutcomes_getD h avail procFn pc fs engineNameArg
      outputFormatsArg (entries.filter isSupportedFile) st i hi

theorem batch_process_outcome_per_supported_file_witness :
    ((batchProcess strHashEx availOk procOkFn pcEx
        ["d/a.png", "d/c.pdf"] pst0 "d" true
        ["d/a.png", "d/b.txt", "d/c.pdf"] none none).1).length =
      (["d/a.png", "d/b.txt", "d/c.pdf"].filter isSupportedFile).length
    ∧ (((batchProcess strHashEx availOk procOkFn pcEx
          ["d/a.png", "d/c.pdf"] pst0 "d" true
          ["d/a.png", "d/b.txt", "d/c.pdf"] none none).1).getD 0 dOut).inputFile =
        some ((["d/a.png", "d/b.txt", "d/c.pdf"].filter isSupportedFile).getD 0 "")
    ∧ (((batchProcess strHashEx availOk procOkFn pcEx
          ["d/a.png", "d/c.pdf"] pst0 "d" true
          ["d/a.png", "d/b.txt", "d/c.pdf"] none none).1).getD 1 dOut).inputFile =
        some ((["d/a.png", "d/b.txt", "d/c.pdf"].filter isSupportedFile).getD 1 "") :=
  ⟨(batch_process_outcome_per_supported_file strHashEx availOk procOkFn pcEx
      ["d/a.png", "d/c.pdf"] pst0 "d" ["d/a.png", "d/b.txt", "d/c.pdf"]
      none none (by decide)).1,
   (batch_process_outcome_per_supported_file strHashEx availOk procOkFn pcEx
      ["d/a.png", "d/c.pdf"] pst0 "d" ["d/a.png", "d/b.txt", "d/c.pdf"]
      none none (by decide)).2 0 (by decide),
   (batch_process_outcome_per_supported_file strHashEx availOk procOkFn pcEx
      ["d/a.png", "d/c.pdf"] pst0 "d" ["d/a.png", "d/b.txt", "d/c.pdf"]
      none none (by decide)).2 1 (by decide)⟩

/-- C9: `to_markdown` returns the layout's `structured_text` entry exactly
when the layout mapping is present and that entry is truthy (for the string
entries produced by the engines, truthy means non-empty), and returns the
record's `text` field otherwise. -/
theorem to_markdown_spec (r : OCRRes) :
    (∀ l v, r.layout = some l → alookup l "structured_text" = some v →
      truthy v = true → toMarkdown r = v)
    ∧ ((∀ l v, r.layout = some l → alookup l "structured_text" = some v →
        truthy v = false) → toMarkdown r = PyVal.pyStr r.text) := by
  constructor
  · intro l v hl hv htr
    have hne : l.isEmpty = false := by
      cases l with
      | nil => simp [alookup] at hv
      | cons a t => rfl
    unfold toMarkdown
    rw [hl]
    dsimp only
    rw [hne, hv]
    simp [htr]
  · intro hfalsy
    unfold toMarkdown
    cases hl : r.layout with
    | none => rfl
    | some l =>
        cases hv : alookup l "structured_text" with
        | none => simp [hv, truthy]
        | some v =>
            have := hfalsy l v hl hv
            simp [hv, this]

theorem to_markdown_spec_witness :
    toMarkdown resMd = PyVal.pyStr "md"
    ∧ toMarkdown resEmptyStruct = PyVal.pyStr "plain" := by
  constructor
  · exact (to_markdown_spec resMd).1 [("structured_text", PyVal.pyStr "md")]
      (PyVal.pyStr "md") rfl rfl rfl
  · refine (to_markdown_spec resEmptyStruct).2 ?_
    intro l v hl hv
    rw [show resEmptyStruct.layout =
      some [("structured_text", PyVal.pyStr "")] from rfl] at hl
    cases Option.some.inj hl
    rw [show alookup [("structured_text", PyVal.pyStr "")] "structured_text" =
      some (PyVal.pyStr "") from rfl] at hv
    cases Option.some.inj hv
    rfl

/-- C10: `batch_process` never returns an empty outcome list — a missing
directory produces the single directory-not-found failure entry, an
existing directory without supported files produces the single
"No supported files found" failure entry, and otherwise one outcome per
supported file (at least one). -/
theorem batch_process_never_empty (h : String → Int)
    (avail : List (String × EngineClass))
    (procFn : Inst → String → Except String OCRRes) (pc : ProcConfig)
    (fs : List String) (st : ProcState) (dirPath : String) (dirExists : Bool)
    (entries : List String) (engineNameArg : Option String)
    (outputFormatsArg : Option (List String)) :
    ((batchProcess h avail procFn pc fs st dirPath dirExists entries
        engineNameArg outputFormatsArg).1) ≠ []
    ∧ (dirExists = false →
        batchProcess h avail procFn pc fs st dirPath dirExists entries
          engineNameArg outputFormatsArg =
          ([{ success := false,
              error := some ("Directory not found: " ++ dirPath),
              engine := none, inputFile := none, outputs := none,
              confidence := none, metadata := none }], st))
    ∧ (dirExists = true → entries.filter isSupportedFile = [] →
        batchProcess h avail procFn pc fs st dirPath dirExists entries
          engineNameArg outputFormatsArg =
          ([{ success := false, error := some "No supported files found",
              engine := none, inputFile := none, outputs := none,
              confidence := none, metadata := none }], st)) := by
  refine ⟨?_, ?_, ?_⟩
  · cases hd : dirExists with
    | false => simp [batchProcess]
    | true =>
        by_cases hf : entries.filter isSupportedFile = []
        · simp [batchProcess, hf]
        · unfold batchProcess
          rw [if_neg (by simp)]
          dsimp only
          rw [if_neg (by simp [List.isEmpty_iff, hf])]
          intro hcontra
          have hlen := congrArg List.length hcontra
          rw [batchProcess_foldl h avail procFn pc fs engineNameArg
            outputFormatsArg (entries.filter isSupportedFile) st []] at hlen
          simp [batchOutcomes_length] at hlen
          exact hf (by
            rw [List.filter_eq_nil_iff]
            simpa using hlen)
  · intro hd
    subst hd
    simp [batchProcess]
  · intro hd hf
    subst hd
    unfold batchProcess
    rw [if_neg (by simp)]
    dsimp only
    rw [if_pos (by simp [List.isEmpty_iff, hf])]

theorem batch_process_never_empty_witness :
    ((batchProcess strHashEx availOk procOkFn pcEx [] pst0 "missing" false
        [] none none).1) ≠ []
    ∧ batchProcess strHashEx availOk procOkFn pcEx [] pst0 "missing" false
        [] none none =
        ([{ success := false,
            error := some ("Directory not found: " ++ "missing"),
            engine := none, inputFile := none, outputs := none,
            confidence := none, metadata := none }], pst0)
    ∧ batchProcess strHashEx availOk procOkFn pcEx [] pst0 "d" true
        ["d/notes.txt"] none none =
        ([{ success := false, error := some "No supported files found",
            engine := none, inputFile := none, outputs := none,
            confidence := none, metadata := none }], pst0) :=
  ⟨(batch_process_never_empty strHashEx availOk procOkFn pcEx [] pst0
      "missing" false [] none none).1,
   (batch_process_never_empty strHashEx availOk procOkFn pcEx [] pst0
      "missing" false [] none none).2.1 rfl,
   (batch_process_never_empty strHashEx availOk procOkFn pcEx [] pst0
      "d" true ["d/notes.txt"] none none).2.2 rfl (by decide)⟩
